import Mathlib

/-!
Verification of the markdown-spacer core formatter (`src/core/formatter.py`).

The Python module is a pure string-to-string rewriter.  We embed it shallowly:
strings are `List Char` (`Str`), each `re.sub` call is hand-translated into a
matcher function applied through a generic leftmost-scan substitution engine
(`scanSubF`, mirroring `re.sub` semantics: at each index try the pattern; on a
match emit the replacement and resume after the match, otherwise copy one
character), and the document driver `format_content` becomes `formatContent`.
`\w` / `\s` are interpreted over the alphabet the program manipulates
(ASCII letters, digits, underscore, and the CJK block 0x4e00-0x9fa5 used by
every pattern of the module; ASCII whitespace).
-/

set_option maxRecDepth 20000

namespace MarkdownSpacer

abbrev Str := List Char

/-- `[一-龥]`, the CJK range used by every pattern in `_create_patterns`. -/
def isCJK (c : Char) : Bool := 0x4e00 ≤ c.toNat && c.toNat ≤ 0x9fa5

/-- `[a-zA-Z]`. -/
def isLatin (c : Char) : Bool :=
  (65 ≤ c.toNat && c.toNat ≤ 90) || (97 ≤ c.toNat && c.toNat ≤ 122)

/-- `[A-Z]`. -/
def isUpperCh (c : Char) : Bool := 65 ≤ c.toNat && c.toNat ≤ 90

/-- `\d` / `[0-9]`. -/
def isDigitCh (c : Char) : Bool := 48 ≤ c.toNat && c.toNat ≤ 57

/-- `[a-zA-Z0-9]`. -/
def isAlnum (c : Char) : Bool := isLatin c || isDigitCh c

/-- `\w` over the program's alphabet: ASCII letters, digits, `_`, CJK. -/
def isWordCh (c : Char) : Bool := isAlnum c || c = '_' || isCJK c

/-- `\s` (Python whitespace, ASCII part). -/
def isPySpace (c : Char) : Bool :=
  c = ' ' || c = '\t' || c = '\n' || c = '\r' || c = '\x0b' || c = '\x0c'

/-- Python `str.strip()`. -/
def pyStrip (l : Str) : Str :=
  ((l.dropWhile isPySpace).reverse.dropWhile isPySpace).reverse

/-- Python `str.lstrip()`. -/
def pyLStrip (l : Str) : Str := l.dropWhile isPySpace

/-- Python `str.split(sep)` for a one-character separator (`"".split(sep) == [""]`). -/
def splitOnChar (sep : Char) : Str → List Str
  | [] => [[]]
  | c :: cs =>
    let r := splitOnChar sep cs
    if c = sep then [] :: r
    else
      match r with
      | h :: t => (c :: h) :: t
      | [] => [[c]]

/-- Python `sub in s` (substring containment). -/
def containsSub (pat : Str) : Str → Bool
  | [] => pat.isEmpty
  | c :: cs => pat.isPrefixOf (c :: cs) || containsSub pat cs

/--
Generic engine for `re.sub`: fuel-indexed leftmost scan.  The matcher returns
`some (replacement, matchLength)` when the pattern matches at the head of the
remaining text.  All patterns of the module match at least one character, so
`matchLength ≥ 1`; `max k 1` only guards termination.  When fuel is exhausted
the remainder is returned unchanged (fuel `= length` always suffices).
-/
def scanSubF (m : Str → Option (Str × Nat)) : Nat → Str → Str
  | 0, l => l
  | _ + 1, [] => []
  | fuel + 1, c :: cs =>
    match m (c :: cs) with
    | some (repl, k) => repl ++ scanSubF m fuel ((c :: cs).drop (max k 1))
    | none => c :: scanSubF m fuel cs

/-- `re.sub(pattern, repl, l)` via the fuel engine. -/
def scanSub (m : Str → Option (Str × Nat)) (l : Str) : Str := scanSubF m l.length l

/-- `re.search(pattern, l) is not None`: does the pattern match at some index? -/
def scanFind (m : Str → Option (Str × Nat)) : Str → Bool
  | [] => false
  | c :: cs => (m (c :: cs)).isSome || scanFind m cs

/-- Python `str.replace(pat, repl)` (all occurrences, left to right). -/
def replaceAllF (pat repl : Str) : Nat → Str → Str
  | 0, l => l
  | _ + 1, [] => []
  | fuel + 1, c :: cs =>
    if pat.isPrefixOf (c :: cs) then
      repl ++ replaceAllF pat repl fuel ((c :: cs).drop (max pat.length 1))
    else c :: replaceAllF pat repl fuel cs

def replaceAll (pat repl l : Str) : Str := replaceAllF pat repl l.length l

/-! ### Basic spacing patterns (`_create_patterns`, applied in `content_spacing_fix`) -/

def isCjkAlnum (c : Char) : Bool := isCJK c || isAlnum c

def isLatinOrCJK (c : Char) : Bool := isLatin c || isCJK c

/-- `([一-龥])([a-zA-Z])` → `\1 \2` (`chinese_english`). -/
def mChineseEnglish : Str → Option (Str × Nat)
  | c1 :: c2 :: _ => if isCJK c1 && isLatin c2 then some ([c1, ' ', c2], 2) else none
  | _ => none

/-- `([a-zA-Z])([一-龥])` → `\1 \2` (`english_chinese`). -/
def mEnglishChinese : Str → Option (Str × Nat)
  | c1 :: c2 :: _ => if isLatin c1 && isCJK c2 then some ([c1, ' ', c2], 2) else none
  | _ => none

/-- `([一-龥])(\d)` → `\1 \2` (`chinese_number`). -/
def mChineseNumber : Str → Option (Str × Nat)
  | c1 :: c2 :: _ => if isCJK c1 && isDigitCh c2 then some ([c1, ' ', c2], 2) else none
  | _ => none

/-- `(\d)([一-龥])` → `\1 \2` (`number_chinese`). -/
def mNumberChinese : Str → Option (Str × Nat)
  | c1 :: c2 :: _ => if isDigitCh c1 && isCJK c2 then some ([c1, ' ', c2], 2) else none
  | _ => none

/-- Character class of the negative lookahead in `number_english`: `[>=<≤≥＝≠]`. -/
def cmpLookSet : List Char := ['>', '=', '<', '≤', '≥', '＝', '≠']

/-- `(\d)([a-zA-Z])(?!\s*[>=<≤≥＝≠])` → `\1 \2` (`number_english`). -/
def mNumberEnglish : Str → Option (Str × Nat)
  | c1 :: c2 :: rest =>
    if isDigitCh c1 && isLatin c2 then
      match rest.dropWhile isPySpace with
      | x :: _ => if x ∈ cmpLookSet then none else some ([c1, ' ', c2], 2)
      | [] => some ([c1, ' ', c2], 2)
    else none
  | _ => none

/-- `([a-zA-Z])(\d)` → `\1 \2` (`english_number`). -/
def mEnglishNumber : Str → Option (Str × Nat)
  | c1 :: c2 :: _ => if isLatin c1 && isDigitCh c2 then some ([c1, ' ', c2], 2) else none
  | _ => none

/-- `([一-龥a-zA-Z0-9])([+/*=<>])([一-龥a-zA-Z0-9])` → `\1 \2 \3` (`math_symbols`). -/
def mMathSymbols : Str → Option (Str × Nat)
  | c1 :: c2 :: c3 :: _ =>
    if isCjkAlnum c1 && (c2 ∈ ['+', '/', '*', '=', '<', '>']) && isCjkAlnum c3 then
      some ([c1, ' ', c2, ' ', c3], 3)
    else none
  | _ => none

/-- `([一-龥a-zA-Z0-9])(-)([一-龥a-zA-Z0-9])(?!\d)(?!\w*-)` → `\1 \2 \3` (`minus_symbol`).
The lookaheads are read at the position after the third character: the next
character must not be a digit, and the character following the maximal `\w` run
must not be `-` (since `-` is not a word character, `\w*-` can match only
there). -/
def mMinusSymbol : Str → Option (Str × Nat)
  | c1 :: '-' :: c3 :: rest =>
    if isCjkAlnum c1 && isCjkAlnum c3 then
      let la1 := match rest with | x :: _ => isDigitCh x | [] => false
      let la2 := match rest.dropWhile isWordCh with | x :: _ => x = '-' | [] => false
      if la1 || la2 then none else some ([c1, ' ', '-', ' ', c3], 3)
    else none
  | _ => none

/-- The punctuation class `[,\.!?;:]` of `punctuation_after`. -/
def punctSet : List Char := [',', '.', '!', '?', ';', ':']

/-- `([,\.!?;:])([A-Za-z一-龥])(?!\w*\.\w+)` → `\1 \2` (`punctuation_after`).
The lookahead `\w*\.\w+` can only match with `\w*` taking the maximal word run
(a shorter run would leave a word character where `\.` must match). -/
def mPunctuationAfter : Str → Option (Str × Nat)
  | p :: c :: rest =>
    if p ∈ punctSet && isLatinOrCJK c then
      let la := match rest.dropWhile isWordCh with
        | '.' :: y :: _ => isWordCh y
        | _ => false
      if la then none else some ([p, ' ', c], 2)
    else none
  | _ => none

/-- `(\))([A-Za-z一-龥])` → `\1 \2` (`rparen_after`). -/
def mRparenAfter : Str → Option (Str × Nat)
  | ')' :: c :: _ => if isLatinOrCJK c then some ([')', ' ', c], 2) else none
  | _ => none

/-- `([一-龥])\s*/\s*([一-龥a-zA-Z])` → `\1 / \2` (`chinese_slash`). -/
def mChineseSlash : Str → Option (Str × Nat)
  | c1 :: rest =>
    if isCJK c1 then
      let s1 := rest.takeWhile isPySpace
      match rest.drop s1.length with
      | '/' :: r2 =>
        let s2 := r2.takeWhile isPySpace
        match r2.drop s2.length with
        | c2 :: _ =>
          if isCJK c2 || isLatin c2 then
            some ([c1, ' ', '/', ' ', c2], 1 + s1.length + 1 + s2.length + 1)
          else none
        | [] => none
      | _ => none
    else none
  | [] => none

/-- `([一-龥])(\d+)` → `\1 \2` (`number_chinese_priority`). -/
def mNumberChinesePriority : Str → Option (Str × Nat)
  | c1 :: rest =>
    if isCJK c1 then
      let ds := rest.takeWhile isDigitCh
      if ds.isEmpty then none else some (c1 :: ' ' :: ds, 1 + ds.length)
    else none
  | [] => none

/-- `re.sub(r" +", " ", text)`: collapse runs of spaces. -/
def mSpaceRun : Str → Option (Str × Nat)
  | ' ' :: rest =>
    let run := rest.takeWhile (fun c => c = ' ')
    some ([' '], 1 + run.length)
  | _ => none

/-! ### Business rules (`_apply_business_rules` and helpers) -/

/-- The ordered alternation `(>=|<=|!=|==|>|<|＞|＜|≥|≤|＝|≠)`. -/
def cmpOps : List Str :=
  [">=".data, "<=".data, "!=".data, "==".data, ">".data, "<".data,
   "＞".data, "＜".data, "≥".data, "≤".data, "＝".data, "≠".data]

/-- Alternation loop for `(op)\s*([0-9])` → `\1 \2` (`comparison_symbols`); a
failing continuation backtracks to the next alternative, as in `re`. -/
def tryCmpOp (l : Str) : List Str → Option (Str × Nat)
  | [] => none
  | op :: ops =>
    if op.isPrefixOf l then
      let r := l.drop op.length
      let sp := r.takeWhile isPySpace
      match r.drop sp.length with
      | d :: _ =>
        if isDigitCh d then some (op ++ [' ', d], op.length + sp.length + 1)
        else tryCmpOp l ops
      | [] => tryCmpOp l ops
    else tryCmpOp l ops

def mComparisonSymbols (l : Str) : Option (Str × Nat) := tryCmpOp l cmpOps

/-- `(op)\s+([0-9]+)\s+([A-Za-z]+)` → `\1 \2\3` (`comparison_symbols_fix`). -/
def tryCmpOpFix (l : Str) : List Str → Option (Str × Nat)
  | [] => none
  | op :: ops =>
    (if op.isPrefixOf l then
      let r := l.drop op.length
      let sp1 := r.takeWhile isPySpace
      let r1 := r.drop sp1.length
      let ds := r1.takeWhile isDigitCh
      let r2 := r1.drop ds.length
      let sp2 := r2.takeWhile isPySpace
      let ls := (r2.drop sp2.length).takeWhile isLatin
      if sp1.isEmpty || ds.isEmpty || sp2.isEmpty || ls.isEmpty then none
      else some (op ++ ' ' :: (ds ++ ls),
                 op.length + sp1.length + ds.length + sp2.length + ls.length)
     else none).orElse (fun _ => tryCmpOpFix l ops)

def mComparisonSymbolsFix (l : Str) : Option (Str × Nat) := tryCmpOpFix l cmpOps

/-- `(?:\.\d+)+` : greedily consume `.digits` groups. -/
def parseDotDigitGroups : Nat → Str → Str × Str
  | 0, l => ([], l)
  | fuel + 1, l =>
    match l with
    | '.' :: r =>
      let ds := r.takeWhile isDigitCh
      if ds.isEmpty then ([], l)
      else
        let p := parseDotDigitGroups fuel (r.drop ds.length)
        ('.' :: ds ++ p.1, p.2)
    | _ => ([], l)

/-- `v (\d+(?:\.\d+)+(?:-[a-zA-Z0-9]+)?)` → `v\1` (version-number glue). -/
def mVersionNumber : Str → Option (Str × Nat)
  | 'v' :: ' ' :: rest =>
    let ds := rest.takeWhile isDigitCh
    if ds.isEmpty then none
    else
      let r1 := rest.drop ds.length
      let p := parseDotDigitGroups r1.length r1
      if p.1.isEmpty then none
      else
        let suf :=
          match p.2 with
          | '-' :: r3 =>
            let an := r3.takeWhile isAlnum
            if an.isEmpty then [] else '-' :: an
          | _ => []
        let g1 := ds ++ p.1 ++ suf
        some ('v' :: g1, 2 + g1.length)
  | _ => none

/-- `v(\d+(?:\.\d+)+) - ([a-zA-Z0-9]+)` → `v\1-\2` (version-hyphen glue). -/
def mVersionHyphen : Str → Option (Str × Nat)
  | 'v' :: rest =>
    let ds := rest.takeWhile isDigitCh
    if ds.isEmpty then none
    else
      let r1 := rest.drop ds.length
      let p := parseDotDigitGroups r1.length r1
      if p.1.isEmpty then none
      else
        match p.2 with
        | ' ' :: '-' :: ' ' :: r3 =>
          let an := r3.takeWhile isAlnum
          if an.isEmpty then none
          else some ('v' :: (ds ++ p.1) ++ '-' :: an,
                     1 + (ds ++ p.1).length + 3 + an.length)
        | _ => none
  | _ => none

def isUpperDigit (c : Char) : Bool := isUpperCh c || isDigitCh c

/-- `([A-Z]{2,}) - ([A-Z0-9]+) - ([A-Z0-9]+)` → `\1-\2-\3` (`tech_abbr_multi`). -/
def mTechAbbrMulti (l : Str) : Option (Str × Nat) :=
  let g1 := l.takeWhile isUpperCh
  if g1.length < 2 then none
  else
    match l.drop g1.length with
    | ' ' :: '-' :: ' ' :: r1 =>
      let g2 := r1.takeWhile isUpperDigit
      if g2.isEmpty then none
      else
        match r1.drop g2.length with
        | ' ' :: '-' :: ' ' :: r2 =>
          let g3 := r2.takeWhile isUpperDigit
          if g3.isEmpty then none
          else some (g1 ++ '-' :: g2 ++ '-' :: g3,
                     g1.length + 3 + g2.length + 3 + g3.length)
        | _ => none
    | _ => none

/-- `([A-Z]{2,}) - ([A-Z0-9]+)` → `\1-\2` (`tech_abbr`). -/
def mTechAbbr (l : Str) : Option (Str × Nat) :=
  let g1 := l.takeWhile isUpperCh
  if g1.length < 2 then none
  else
    match l.drop g1.length with
    | ' ' :: '-' :: ' ' :: r1 =>
      let g2 := r1.takeWhile isUpperDigit
      if g2.isEmpty then none
      else some (g1 ++ '-' :: g2, g1.length + 3 + g2.length)
    | _ => none

/-- `(flake) (8)` → `\1\2` (`tool_name`). -/
def mToolName (l : Str) : Option (Str × Nat) :=
  if "flake 8".data.isPrefixOf l then some ("flake8".data, 7) else none

/-- The ordered unit alternation of `number_unit`. -/
def unitList : List Str :=
  ["MB".data, "GB".data, "KB".data, "TB".data, "B".data, "℃".data, "°C".data,
   "°F".data, "%".data, "km".data, "cm".data, "mm".data, "m".data, "kg".data,
   "g".data, "mg".data, "s".data, "ms".data, "h".data, "d".data, "px".data,
   "em".data, "rem".data, "pt".data]

def firstUnitOf (l : Str) : List Str → Option Str
  | [] => none
  | u :: us => if u.isPrefixOf l then some u else firstUnitOf l us

/-- `(\d+) (MB|GB|…|pt)` → `\1\2` (`number_unit`). -/
def mNumberUnit (l : Str) : Option (Str × Nat) :=
  let ds := l.takeWhile isDigitCh
  if ds.isEmpty then none
  else
    match l.drop ds.length with
    | ' ' :: r =>
      match firstUnitOf r unitList with
      | some u => some (ds ++ u, ds.length + 1 + u.length)
      | none => none
    | _ => none

def unitPlusList : List Str := ["MB".data, "GB".data, "KB".data, "TB".data, "B".data]

/-- Alternation loop of `(\d+)(MB|GB|KB|TB|B)\s*\+`. -/
def tryUnitPlus (r : Str) : List Str → Option (Str × Nat)
  | [] => none
  | u :: us =>
    (if u.isPrefixOf r then
      let r1 := r.drop u.length
      let sp := r1.takeWhile isPySpace
      match r1.drop sp.length with
      | '+' :: _ => some (u, u.length + sp.length + 1)
      | _ => none
     else none).orElse (fun _ => tryUnitPlus r us)

/-- `(\d+)(MB|GB|KB|TB|B)\s*\+` → `\1\2+` (`number_unit_plus`). -/
def mNumberUnitPlus (l : Str) : Option (Str × Nat) :=
  let ds := l.takeWhile isDigitCh
  if ds.isEmpty then none
  else
    match tryUnitPlus (l.drop ds.length) unitPlusList with
    | some (u, k) => some (ds ++ u ++ ['+'], ds.length + k)
    | none => none

/-- `([a-zA-Z0-9]+) - ([a-zA-Z0-9]+)` → `\1-\2` (`english_hyphen`). -/
def mEnglishHyphen (l : Str) : Option (Str × Nat) :=
  let g1 := l.takeWhile isAlnum
  if g1.isEmpty then none
  else
    match l.drop g1.length with
    | ' ' :: '-' :: ' ' :: r =>
      let g2 := r.takeWhile isAlnum
      if g2.isEmpty then none
      else some (g1 ++ '-' :: g2, g1.length + 3 + g2.length)
    | _ => none

/-- `re.sub(r"([a-zA-Z0-9]+) $", r"\1", text)`: drop a single trailing space
directly preceded by an alphanumeric character. -/
def trailingWordTrim (l : Str) : Str :=
  match l.reverse with
  | ' ' :: c :: rest => if isAlnum c then (c :: rest).reverse else l
  | _ => l

/-- `(\d{1,2}) ` with regex backtracking: two digits followed by a space, or
one digit followed by a space.  Returns the digits and the rest after the
space. -/
def parse12sp : Str → Option (Str × Str)
  | d1 :: d2 :: rest2 =>
    if isDigitCh d1 then
      if isDigitCh d2 then
        match rest2 with
        | ' ' :: r => some ([d1, d2], r)
        | _ => none
      else if d2 = ' ' then some ([d1], rest2)
      else none
    else none
  | _ => none

/-- `(\d{4}) 年 (\d{1,2}) 月 (\d{1,2}) 日` → `\1年\2月\3日` (`date_format`). -/
def mDateFormat : Str → Option (Str × Nat)
  | a :: b :: c :: d :: ' ' :: '年' :: ' ' :: rest =>
    if isDigitCh a && isDigitCh b && isDigitCh c && isDigitCh d then
      match parse12sp rest with
      | some (m, r1) =>
        match r1 with
        | '月' :: ' ' :: r2 =>
          match parse12sp r2 with
          | some (dd, r3) =>
            match r3 with
            | '日' :: _ =>
              some ([a, b, c, d] ++ '年' :: m ++ '月' :: dd ++ ['日'],
                    4 + 3 + (m.length + 1) + 2 + (dd.length + 1) + 1)
            | _ => none
          | none => none
        | _ => none
      | none => none
    else none
  | _ => none

/-- `(\d{1,2}) 月 (\d{1,2}) 日` → `\1月\2日` (`date_format_short`). -/
def mDateShort (l : Str) : Option (Str × Nat) :=
  match parse12sp l with
  | some (m, r1) =>
    match r1 with
    | '月' :: ' ' :: r2 =>
      match parse12sp r2 with
      | some (d, r3) =>
        match r3 with
        | '日' :: _ =>
          some (m ++ '月' :: d ++ ['日'], (m.length + 1) + 2 + (d.length + 1) + 1)
        | _ => none
      | none => none
    | _ => none
  | none => none

/-! ### File-path cleanup (`_fix_file_paths`) -/

/-- `(\w+) \. ([a-zA-Z0-9]+)` → `\1.\2` (`file_extension`). -/
def mFileExtension (l : Str) : Option (Str × Nat) :=
  let g1 := l.takeWhile isWordCh
  if g1.isEmpty then none
  else
    match l.drop g1.length with
    | ' ' :: '.' :: ' ' :: r =>
      let g2 := r.takeWhile isAlnum
      if g2.isEmpty then none
      else some (g1 ++ '.' :: g2, g1.length + 3 + g2.length)
    | _ => none

/-- The `path_keywords` list. -/
def pathKeywords : List Str :=
  ["src".data, "docs".data, "config".data, "bin".data, "usr".data, "local".data,
   "home".data, "etc".data, "var".data, "tmp".data, "core".data, "utils".data,
   "helpers".data]

/-- `\.\s*\w+` (file-extension signal, used via `re.search`). -/
def mExtSignal : Str → Option (Str × Nat)
  | '.' :: r =>
    let sp := r.takeWhile isPySpace
    let w := (r.drop sp.length).takeWhile isWordCh
    if w.isEmpty then none else some ([], 1 + sp.length + w.length)
  | _ => none

/-- `[A-Z]:\s*\\` (Windows drive signal, used via `re.search`). -/
def mDriveSignal : Str → Option (Str × Nat)
  | c :: ':' :: r =>
    if isUpperCh c then
      let sp := r.takeWhile isPySpace
      match r.drop sp.length with
      | '\\' :: _ => some ([], 2 + sp.length + 1)
      | _ => none
    else none
  | _ => none

/-- `has_path_features`: extension signal OR a path keyword occurring as a
substring (Python `keyword in text`) OR a Windows drive pattern. -/
def hasPathFeatures (l : Str) : Bool :=
  scanFind mExtSignal l || pathKeywords.any (fun k => containsSub k l) ||
    scanFind mDriveSignal l

/-- `([^\s])\s*/\s*([^\s])` → `\1/\2`. -/
def mSlashCollapse : Str → Option (Str × Nat)
  | c1 :: r =>
    if isPySpace c1 then none
    else
      let s1 := r.takeWhile isPySpace
      match r.drop s1.length with
      | '/' :: r2 =>
        let s2 := r2.takeWhile isPySpace
        match r2.drop s2.length with
        | c2 :: _ => some ([c1, '/', c2], 1 + s1.length + 1 + s2.length + 1)
        | [] => none
      | _ => none
  | [] => none

/-- `([A-Z]:)\s*\\\s*([^\s])` → `\1\\\2`. -/
def mWinDrive : Str → Option (Str × Nat)
  | c :: ':' :: r =>
    if isUpperCh c then
      let s1 := r.takeWhile isPySpace
      match r.drop s1.length with
      | '\\' :: r2 =>
        let s2 := r2.takeWhile isPySpace
        match r2.drop s2.length with
        | c2 :: _ => some ([c, ':', '\\', c2], 2 + s1.length + 1 + s2.length + 1)
        | [] => none
      | _ => none
    else none
  | _ => none

/-- `([^\s])\s*\\\s*([^\s])` → `\1\\\2`. -/
def mBackslashCollapse : Str → Option (Str × Nat)
  | c1 :: r =>
    if isPySpace c1 then none
    else
      let s1 := r.takeWhile isPySpace
      match r.drop s1.length with
      | '\\' :: r2 =>
        let s2 := r2.takeWhile isPySpace
        match r2.drop s2.length with
        | c2 :: _ => some ([c1, '\\', c2], 1 + s1.length + 1 + s2.length + 1)
        | [] => none
      | _ => none
  | [] => none

/-- Pattern `path_file_extension`: a run of word chars, hyphen or slash, then
`\s+\.\s+([a-zA-Z0-9]+)`, replaced by `\1.\2`. -/
def mPathFileExt (l : Str) : Option (Str × Nat) :=
  let g1 := l.takeWhile (fun c => isWordCh c || c = '-' || c = '/')
  if g1.isEmpty then none
  else
    let r := l.drop g1.length
    let s1 := r.takeWhile isPySpace
    if s1.isEmpty then none
    else
      match r.drop s1.length with
      | '.' :: r2 =>
        let s2 := r2.takeWhile isPySpace
        if s2.isEmpty then none
        else
          let g2 := (r2.drop s2.length).takeWhile isAlnum
          if g2.isEmpty then none
          else some (g1 ++ '.' :: g2,
                     g1.length + s1.length + 1 + s2.length + g2.length)
      | _ => none

/-- `\.\s+([a-zA-Z0-9]+)` → `.\1` (final catch-all of `_fix_file_paths`). -/
def mDotSpaceGlue : Str → Option (Str × Nat)
  | '.' :: r =>
    let sp := r.takeWhile isPySpace
    if sp.isEmpty then none
    else
      let g := (r.drop sp.length).takeWhile isAlnum
      if g.isEmpty then none
      else some ('.' :: g, 1 + sp.length + g.length)
  | _ => none

/-- `_fix_file_paths`. -/
def fixFilePaths (t0 : Str) : Str :=
  let t1 := scanSub mFileExtension t0
  let t2 :=
    if hasPathFeatures t1 then
      scanSub mBackslashCollapse (scanSub mWinDrive (scanSub mSlashCollapse t1))
    else t1
  let t3 := scanSub mPathFileExt t2
  if containsSub ['/'] t3 || containsSub ['\\'] t3 then scanSub mDotSpaceGlue t3
  else t3

/-- `_fix_comparison_symbols`. -/
def fixComparisonSymbols (t : Str) : Str :=
  scanSub mComparisonSymbolsFix (scanSub mComparisonSymbols t)

/-- `_fix_technical_terms`. -/
def fixTechnicalTerms (t0 : Str) : Str :=
  let t1 := scanSub mVersionNumber t0
  let t2 := scanSub mVersionHyphen t1
  let t3 := scanSub mTechAbbrMulti t2
  let t4 := scanSub mTechAbbr t3
  let t5 := scanSub mToolName t4
  let t6 := scanSub mNumberUnit t5
  let t7 := scanSub mNumberUnitPlus t6
  let t8 := scanSub mEnglishHyphen t7
  trailingWordTrim t8

/-- `_fix_date_format`. -/
def fixDateFormat (t : Str) : Str :=
  scanSub mDateShort (scanSub mDateFormat t)

/-- `_apply_business_rules`. -/
def applyBusinessRules (t : Str) : Str :=
  fixFilePaths (fixDateFormat (fixTechnicalTerms (fixComparisonSymbols t)))

/-! ### Protected-span vault (`_protect_special_content` / `_restore_special_content`) -/

/-- `_create_placeholder`'s key for the `n`-th protected span. -/
def placeholderKey (n : Nat) : Str :=
  "__PROTECTED_".data ++ (toString n).data ++ "__".data

/-- One protection pass: `re.sub(pattern, lambda m: _create_placeholder(...))`.
Each match is replaced by the key of the next table slot, and its text is
appended to the table. -/
def protectScanF (m : Str → Option (Str × Nat)) :
    Nat → List Str → Str → Str × List Str
  | 0, tbl, l => (l, tbl)
  | _ + 1, tbl, [] => ([], tbl)
  | fuel + 1, tbl, c :: cs =>
    match m (c :: cs) with
    | some (content, k) =>
      let p := protectScanF m fuel (tbl ++ [content]) ((c :: cs).drop (max k 1))
      (placeholderKey tbl.length ++ p.1, p.2)
    | none =>
      let p := protectScanF m fuel tbl cs
      (c :: p.1, p.2)

def protectScan (m : Str → Option (Str × Nat)) (tbl : List Str) (l : Str) :
    Str × List Str :=
  protectScanF m l.length tbl l

/-- `\$\$[^$]*\$\$` (block math). -/
def mProtMathBlock : Str → Option (Str × Nat)
  | '$' :: '$' :: rest =>
    let run := rest.takeWhile (fun c => c ≠ '$')
    match rest.drop run.length with
    | '$' :: '$' :: _ => some ('$' :: '$' :: run ++ ['$', '$'], 4 + run.length)
    | _ => none
  | _ => none

/-- `\$[^$\n]*\$` (inline math). -/
def mProtMathInline : Str → Option (Str × Nat)
  | '$' :: rest =>
    let run := rest.takeWhile (fun c => c ≠ '$' && c ≠ '\n')
    match rest.drop run.length with
    | '$' :: _ => some ('$' :: run ++ ['$'], 2 + run.length)
    | _ => none
  | _ => none

def backquoteCh : Char := Char.ofNat 96

/-- Inline code spans (backquote, any run of non-backquote chars, backquote). -/
def mProtInlineCode : Str → Option (Str × Nat)
  | c :: rest =>
    if c = backquoteCh then
      let run := rest.takeWhile (fun x => x ≠ backquoteCh)
      match rest.drop run.length with
      | d :: _ => some (c :: run ++ [d], 2 + run.length)
      | [] => none
    else none
  | [] => none

/-- `\[[^\]]*\]\([^)]*\)` (markdown link). -/
def mProtLink : Str → Option (Str × Nat)
  | '[' :: rest =>
    let r1 := rest.takeWhile (fun c => c ≠ ']')
    match rest.drop r1.length with
    | ']' :: '(' :: r2 =>
      let r3 := r2.takeWhile (fun c => c ≠ ')')
      match r2.drop r3.length with
      | ')' :: _ =>
        some ('[' :: r1 ++ ']' :: '(' :: r3 ++ [')'],
              1 + r1.length + 2 + r3.length + 1)
      | _ => none
    | _ => none
  | _ => none

/-- `!\[[^\]]*\]\([^)]*\)` (markdown image). -/
def mProtImage : Str → Option (Str × Nat)
  | '!' :: rest =>
    match mProtLink rest with
    | some (content, k) => some ('!' :: content, k + 1)
    | none => none
  | _ => none

/-- `<[^>]*>[^<]*</[^>]*>` (full HTML element). -/
def mProtHtmlFull : Str → Option (Str × Nat)
  | '<' :: rest =>
    let r1 := rest.takeWhile (fun c => c ≠ '>')
    match rest.drop r1.length with
    | '>' :: r2 =>
      let r3 := r2.takeWhile (fun c => c ≠ '<')
      match r2.drop r3.length with
      | '<' :: '/' :: r4 =>
        let r5 := r4.takeWhile (fun c => c ≠ '>')
        match r4.drop r5.length with
        | '>' :: _ =>
          some ('<' :: r1 ++ '>' :: r3 ++ '<' :: '/' :: r5 ++ ['>'],
                1 + r1.length + 1 + r3.length + 2 + r5.length + 1)
        | _ => none
      | _ => none
    | _ => none
  | _ => none

/-- `<[^>]*/>` (self-closing tag): the run before the first `>` must end in `/`. -/
def mProtHtmlSelf : Str → Option (Str × Nat)
  | '<' :: rest =>
    let r1 := rest.takeWhile (fun c => c ≠ '>')
    match rest.drop r1.length with
    | '>' :: _ =>
      match r1.getLast? with
      | some '/' => some ('<' :: r1 ++ ['>'], 2 + r1.length)
      | _ => none
    | _ => none
  | _ => none

/-- `<[^>]*>` (bare tag). -/
def mProtHtmlOpen : Str → Option (Str × Nat)
  | '<' :: rest =>
    let r1 := rest.takeWhile (fun c => c ≠ '>')
    match rest.drop r1.length with
    | '>' :: _ => some ('<' :: r1 ++ ['>'], 2 + r1.length)
    | _ => none
  | _ => none

/-- The whitelisted extension alternation `(txt|py|toml|yaml|yml|json|md|markdown)`. -/
def extList : List Str :=
  ["txt".data, "py".data, "toml".data, "yaml".data, "yml".data, "json".data,
   "md".data, "markdown".data]

/-- Filename protection: a run of word chars or `-`, a dot, then the first
matching alternative of `extList`. -/
def mProtFilename (l : Str) : Option (Str × Nat) :=
  let g1 := l.takeWhile (fun c => isWordCh c || c = '-')
  if g1.isEmpty then none
  else
    match l.drop g1.length with
    | '.' :: r =>
      match firstUnitOf r extList with
      | some e => some (g1 ++ '.' :: e, g1.length + 1 + e.length)
      | none => none
    | _ => none

/-- `_protect_special_content`: the nine passes in source order, sharing one
placeholder table. -/
def protectSpecialContent (t : Str) : Str × List Str :=
  let p1 := protectScan mProtMathBlock [] t
  let p2 := protectScan mProtMathInline p1.2 p1.1
  let p3 := protectScan mProtInlineCode p2.2 p2.1
  let p4 := protectScan mProtLink p3.2 p3.1
  let p5 := protectScan mProtImage p4.2 p4.1
  let p6 := protectScan mProtHtmlFull p5.2 p5.1
  let p7 := protectScan mProtHtmlSelf p6.2 p6.1
  let p8 := protectScan mProtHtmlOpen p7.2 p7.1
  protectScan mProtFilename p8.2 p8.1

/-- Code-point lexicographic order on strings (Python `<` on `str`). -/
def strLt : Str → Str → Bool
  | [], [] => false
  | [], _ :: _ => true
  | _ :: _, [] => false
  | a :: as, b :: bs =>
    if a.toNat < b.toNat then true
    else if a.toNat = b.toNat then strLt as bs
    else false

def insertAscBy (x : Str × Str) : List (Str × Str) → List (Str × Str)
  | [] => [x]
  | y :: ys => if strLt x.1 y.1 then x :: y :: ys else y :: insertAscBy x ys

def sortPairsAsc (l : List (Str × Str)) : List (Str × Str) := l.foldr insertAscBy []

/-- `_restore_special_content`: iterate keys in `sorted(keys, reverse=True)`
order (string sort, exactly as Python's `sorted` on the dict keys), replacing
every occurrence of each key by its recorded content. -/
def restoreSpecialContent (t : Str) (tbl : List Str) : Str :=
  let pairs := (List.range tbl.length).map (fun n => (placeholderKey n, tbl.getD n []))
  ((sortPairsAsc pairs).reverse).foldl (fun acc kv => replaceAll kv.1 kv.2 acc) t

/-! ### Optional bold-quote transform (`_fix_chinese_quotes_bold`) -/

/-- The character set `"，。！？；："` consulted around a bolded pair. -/
def fullwidthPunct : List Char := ['，', '。', '！', '？', '；', '：']

/-- The scan of `re.sub(r'"([^"]*)"', replace_quotes, text)`; the replacement
callback inspects the characters of the original text adjacent to the match
(`text[match.start() - 1]` and `text[match.end()]`).  Note the pattern uses
the ASCII double-quote (byte 0x22), exactly as in the source. -/
def fcqbF (orig : Str) : Nat → Nat → Str → Str
  | 0, _, l => l
  | _ + 1, _, [] => []
  | fuel + 1, pos, c :: cs =>
    if c = '"' then
      let content := cs.takeWhile (fun x => x ≠ '"')
      match cs.drop content.length with
      | '"' :: rest2 =>
        let mEnd := pos + content.length + 2
        let core := '*' :: '*' :: content ++ ['*', '*']
        let withPre :=
          if pos > 0 then
            match orig.get? (pos - 1) with
            | some pc =>
              if !isPySpace pc && pc ∉ fullwidthPunct then ' ' :: core else core
            | none => core
          else core
        let withSuf :=
          match orig.get? mEnd with
          | some nc =>
            if !isPySpace nc && nc ∉ fullwidthPunct then withPre ++ [' '] else withPre
          | none => withPre
        withSuf ++ fcqbF orig fuel mEnd rest2
      | _ => c :: fcqbF orig fuel (pos + 1) cs
    else c :: fcqbF orig fuel (pos + 1) cs

/-- `_fix_chinese_quotes_bold`: a text beginning with the quote character is
returned untouched; otherwise all pairs are bolded. -/
def fixChineseQuotesBold (t : Str) : Str :=
  match t with
  | '"' :: _ => t
  | _ => fcqbF t t.length 0 t

/-! ### `content_spacing_fix` -/

/-- `content_spacing_fix`: protect, basic spacing passes in source order,
space collapsing, business rules, optional bold quotes, restore. -/
def contentSpacingFixB (boldQuotes : Bool) (text : Str) : Str :=
  let p := protectSpecialContent text
  let t1 := scanSub mChineseEnglish p.1
  let t2 := scanSub mEnglishChinese t1
  let t3 := scanSub mChineseNumber t2
  let t4 := scanSub mNumberChinese t3
  let t5 := scanSub mNumberEnglish t4
  let t6 := scanSub mEnglishNumber t5
  let t7 := scanSub mMathSymbols t6
  let t8 := scanSub mMinusSymbol t7
  let t9 := scanSub mPunctuationAfter t8
  let t10 := scanSub mRparenAfter t9
  let t11 := scanSub mChineseSlash t10
  let t12 := scanSub mNumberChinesePriority t11
  let t13 := scanSub mSpaceRun t12
  let t14 := applyBusinessRules t13
  let t15 := if boldQuotes then fixChineseQuotesBold t14 else t14
  restoreSpecialContent t15 p.2

/-! ### Line classification (`_is_*_line`, `_extract_*`) -/

def fenceMark : Str := List.replicate 3 backquoteCh

def mathMark : Str := ['$', '$']

/-- `_is_protected_content`. -/
def isProtectedContent (line : Str) : Bool :=
  fenceMark.isPrefixOf (pyStrip line) || mathMark.isPrefixOf (pyStrip line)

/-- `_is_horizontal_rule_line`: `^[-*_]{3,}$` on the stripped line. -/
def isHorizontalRuleLine (line : Str) : Bool :=
  let s := pyStrip line
  decide (3 ≤ s.length) && s.all (fun c => c = '-' || c = '*' || c = '_')

/-- `_is_title_line`. -/
def isTitleLine (line : Str) : Bool :=
  let s := pyStrip line
  "#".data.isPrefixOf s && !(fenceMark.isPrefixOf s)

/-- `_extract_title_content`. -/
def extractTitleContent (line : Str) : Str × Str :=
  let s := pyStrip line
  let hashes := s.takeWhile (fun c => c = '#')
  let rest := s.drop hashes.length
  match rest with
  | [] => ([' '], pyLStrip s)
  | _ => (hashes ++ [' '], pyLStrip rest)

/-- `^\d+\.\s` (ordered-list test). -/
def orderedListTest (s : Str) : Bool :=
  let ds := s.takeWhile isDigitCh
  !ds.isEmpty &&
    match s.drop ds.length with
    | '.' :: w :: _ => isPySpace w
    | _ => false

/-- `^[-*+]\s*\[[ xX]\]` (task-list test). -/
def taskListTest (s : Str) : Bool :=
  match s with
  | m :: r =>
    (m = '-' || m = '*' || m = '+') &&
      (let sp := r.takeWhile isPySpace
       match r.drop sp.length with
       | '[' :: x :: ']' :: _ => x = ' ' || x = 'x' || x = 'X'
       | _ => false)
  | [] => false

/-- `_is_list_line` (the task-list check is subsumed by the marker check but
kept in source order). -/
def isListLine (line : Str) : Bool :=
  let s := pyStrip line
  (match s with | c :: _ => c = '-' || c = '*' || c = '+' | [] => false) ||
    orderedListTest s || taskListTest s

/-- Unordered-marker branch of `_extract_list_content`: split at the first
space if any, else fall to the default `("", stripped)`. -/
def unorderedSplit (s : Str) : Str × Str :=
  match s with
  | c :: _ =>
    if c = '-' || c = '*' || c = '+' then
      match s.findIdx? (fun x => x = ' ') with
      | some i => (s.take (i + 1), s.drop (i + 1))
      | none => ([], s)
    else ([], s)
  | [] => ([], s)

/-- `_extract_list_content`: ordered list, then task list (whose inner regex
`^([-*+]\s*\[[ xX]\]\s+)(.*)` needs whitespace after `]`, falling through to
the unordered branch otherwise), then unordered, then default. -/
def extractListContent (line : Str) : Str × Str :=
  let s := pyStrip line
  if orderedListTest s then
    let ds := s.takeWhile isDigitCh
    let r1 := s.drop (ds.length + 1)
    let ws := r1.takeWhile isPySpace
    (ds ++ '.' :: ws, r1.drop ws.length)
  else if taskListTest s then
    match s with
    | m :: r =>
      let sp := r.takeWhile isPySpace
      match r.drop sp.length with
      | '[' :: x :: ']' :: r3 =>
        let ws2 := r3.takeWhile isPySpace
        if ws2.isEmpty then unorderedSplit s
        else (m :: sp ++ '[' :: x :: ']' :: ws2, r3.drop ws2.length)
      | _ => unorderedSplit s
    | [] => ([], s)
  else unorderedSplit s

/-- `_is_quote_line`. -/
def isQuoteLine (line : Str) : Bool := ">".data.isPrefixOf (pyStrip line)

/-- `_extract_quote_content`. -/
def extractQuoteContent (line : Str) : Str × Str :=
  let s := pyStrip line
  match s with
  | '>' :: _ =>
    let gts := s.takeWhile (fun c => c = '>')
    let rest := s.drop gts.length
    match rest with
    | [] => ([' '], pyLStrip s)
    | _ => (gts ++ [' '], pyLStrip rest)
  | _ => ([], s)

/-- `\|[\s]*[-:]+\s*\|` (table-separator search pattern). -/
def mSepPattern : Str → Option (Str × Nat)
  | '|' :: r =>
    let sp1 := r.takeWhile isPySpace
    let ds := (r.drop sp1.length).takeWhile (fun c => c = '-' || c = ':')
    if ds.isEmpty then none
    else
      let r2 := (r.drop sp1.length).drop ds.length
      let sp2 := r2.takeWhile isPySpace
      match r2.drop sp2.length with
      | '|' :: _ => some ([], 1 + sp1.length + ds.length + sp2.length + 1)
      | _ => none
  | _ => none

/-- `re.search(r"\|[\s]*[-:]+\s*\|", s)` as a Boolean. -/
def sepSearch (s : Str) : Bool := scanFind mSepPattern s

/-- `_is_table_line`. -/
def isTableLine (line : Str) : Bool :=
  let s := pyStrip line
  if !containsSub ['|'] s then false
  else if sepSearch s then true
  else decide (2 ≤ s.count '|')

/-- `_extract_table_cells`. -/
def extractTableCells (line : Str) : List Str :=
  let s := pyStrip line
  if !("|".data.isPrefixOf s) || !("|".data.isSuffixOf s) then []
  else splitOnChar '|' (s.drop 1).dropLast

/-! ### Driver (`_format_line`, `format_content`) -/

/-- The cell-processing loop body of `_format_line`'s table branch:
`cell_content = cell.strip(); " " + fix(cell_content) + " "` for non-empty
cells, `" "` for empty cells. -/
def processCell (bq : Bool) (cell : Str) : Str :=
  let cc := pyStrip cell
  if !cc.isEmpty then ' ' :: contentSpacingFixB bq cc ++ [' '] else [' ']

/-- `_format_line`. -/
def formatLine (bq : Bool) (line : Str) : Str :=
  if isProtectedContent line then line
  else if isHorizontalRuleLine line then line
  else if isTitleLine line then
    let pc := extractTitleContent line
    pc.1 ++ contentSpacingFixB bq pc.2
  else if isListLine line then
    let pc := extractListContent line
    pc.1 ++ contentSpacingFixB bq pc.2
  else if isQuoteLine line then
    let pc := extractQuoteContent line
    pc.1 ++ contentSpacingFixB bq pc.2
  else if isTableLine line then
    if sepSearch (pyStrip line) then line
    else
      let processed := (extractTableCells line).map (processCell bq)
      '|' :: List.intercalate ['|'] processed ++ ['|']
  else contentSpacingFixB bq line

/-- The fence-toggling loop body of `format_content` over the split lines,
carrying `(in_code_block, in_math_block)`. -/
def processLines (bq : Bool) : Bool → Bool → List Str → List Str
  | _, _, [] => []
  | c, m, l :: ls =>
    if fenceMark.isPrefixOf (pyStrip l) then l :: processLines bq (!c) m ls
    else if mathMark.isPrefixOf (pyStrip l) then l :: processLines bq c (!m) ls
    else if c || m || isProtectedContent l then l :: processLines bq c m ls
    else formatLine bq l :: processLines bq c m ls

def joinNl : List Str → Str := List.intercalate ['\n']

/-- `format_content` (with the `bold_quotes` option of the formatter). -/
def formatContent (bq : Bool) (content : String) : String :=
  ⟨joinNl (processLines bq false false (splitOnChar '\n' content.data))⟩

/-- The fence-toggle step of the loop in `format_content`. -/
def stepFence (st : Bool × Bool) (line : Str) : Bool × Bool :=
  if fenceMark.isPrefixOf (pyStrip line) then (!st.1, st.2)
  else if mathMark.isPrefixOf (pyStrip line) then (st.1, !st.2)
  else st

/-- The `(in_code_block, in_math_block)` state held before processing the
`i`-th line. -/
def fenceStateAt (st : Bool × Bool) : List Str → Nat → Bool × Bool
  | _, 0 => st
  | [], _ + 1 => st
  | l :: ls, i + 1 => fenceStateAt (stepFence st l) ls i

/-! ### Claim-support definitions -/

/-- A content span with twelve inline math formulas, the second of which sits
inside an inline-code span.  Masking it creates placeholders `0`–`11` for the
formulas and `12` for the code span (whose recorded text contains the key
`__PROTECTED_1__`). -/
def leakInput : Str := "$a$ `$b$` $c$ $d$ $e$ $f$ $g$ $h$ $i$ $j$ $k$ $l$".data

/-- Occurrence of `k` in `l` as a whole token: `k` matches at some index whose
neighbouring characters (when they exist) are not word characters.  This
follows the spec's words «a recognized path-keyword token present» and is the
claim-side reading compared against `hasPathFeatures` (which performs Python's
plain substring test `keyword in text`). -/
def isTokenOccur (k l : Str) : Bool :=
  (List.range (l.length + 1)).any (fun i =>
    k.isPrefixOf (l.drop i) &&
    (decide (i = 0) || !isWordCh (l.getD (i - 1) ' ')) &&
    (decide (l.length ≤ i + k.length) || !isWordCh (l.getD (i + k.length) ' ')))

/-- Claim-side reading of the path-keyword signal: some keyword occurs as a
whole token. -/
def hasPathKeywordToken (l : Str) : Bool :=
  pathKeywords.any (fun k => isTokenOccur k l)

/-- `u` is obtained from `t` by inserting single spaces, each directly after a
punctuation character of `punctSet` and before a Latin or CJK character — the
shape of every edit the `punctuation_after` pass may perform (in particular no
space is ever inserted before the punctuation and nothing is deleted). -/
inductive PunctSpaced : Str → Str → Prop
  | nil : PunctSpaced [] []
  | copy (c : Char) {t u : Str} : PunctSpaced t u → PunctSpaced (c :: t) (c :: u)
  | ins (p c : Char) {t u : Str} (hp : p ∈ punctSet) (hc : isLatinOrCJK c = true) :
      PunctSpaced t u → PunctSpaced (p :: c :: t) (p :: ' ' :: c :: u)

/-! ## Helper lemmas -/

theorem processLines_cons (bq c m : Bool) (l : Str) (ls : List Str) :
    processLines bq c m (l :: ls) =
      (if fenceMark.isPrefixOf (pyStrip l) then l
       else if mathMark.isPrefixOf (pyStrip l) then l
       else if c || m || isProtectedContent l then l
       else formatLine bq l) ::
      processLines bq (stepFence (c, m) l).1 (stepFence (c, m) l).2 ls := by
  by_cases h1 : fenceMark.isPrefixOf (pyStrip l) = true <;>
    by_cases h2 : mathMark.isPrefixOf (pyStrip l) = true <;>
      by_cases h3 : (c || m || isProtectedContent l) = true <;>
        simp [processLines, stepFence, h1, h2, h3]

theorem processLines_length (bq : Bool) :
    ∀ (ls : List Str) (c m : Bool), (processLines bq c m ls).length = ls.length
  | [], _, _ => rfl
  | l :: ls, c, m => by
    rw [processLines_cons]
    simp [processLines_length bq ls]

theorem fenceStateAt_zero (st : Bool × Bool) (ls : List Str) :
    fenceStateAt st ls 0 = st := by
  cases ls <;> rfl

theorem fenceStateAt_succ (st : Bool × Bool) (l : Str) (ls : List Str) (i : Nat) :
    fenceStateAt st (l :: ls) (i + 1) = fenceStateAt (stepFence st l) ls i := rfl

theorem processLines_fence_unchanged (bq : Bool) :
    ∀ (ls : List Str) (c m : Bool) (i : Nat), i < ls.length →
      fenceMark.isPrefixOf (pyStrip (ls.getD i [])) = true →
      (processLines bq c m ls).getD i [] = ls.getD i []
  | [], _, _, _, hi, _ => absurd hi (by simp)
  | l :: ls, c, m, 0, _, hf => by
    rw [processLines_cons]
    simp only [List.getD_cons_zero] at hf ⊢
    simp [hf]
  | l :: ls, c, m, i + 1, hi, hf => by
    rw [processLines_cons]
    simp only [List.getD_cons_succ] at hf ⊢
    exact processLines_fence_unchanged bq ls _ _ i (by simpa using hi) hf

theorem processLines_math_unchanged (bq : Bool) :
    ∀ (ls : List Str) (c m : Bool) (i : Nat), i < ls.length →
      fenceMark.isPrefixOf (pyStrip (ls.getD i [])) = false →
      mathMark.isPrefixOf (pyStrip (ls.getD i [])) = true →
      (processLines bq c m ls).getD i [] = ls.getD i []
  | [], _, _, _, hi, _, _ => absurd hi (by simp)
  | l :: ls, c, m, 0, _, hf, hm => by
    rw [processLines_cons]
    simp only [List.getD_cons_zero] at hf hm ⊢
    simp [hf, hm]
  | l :: ls, c, m, i + 1, hi, hf, hm => by
    rw [processLines_cons]
    simp only [List.getD_cons_succ] at hf hm ⊢
    exact processLines_math_unchanged bq ls _ _ i (by simpa using hi) hf hm

theorem processLines_active_unchanged (bq : Bool) :
    ∀ (ls : List Str) (c m : Bool) (i : Nat), i < ls.length →
      ((fenceStateAt (c, m) ls i).1 = true ∨ (fenceStateAt (c, m) ls i).2 = true) →
      (processLines bq c m ls).getD i [] = ls.getD i []
  | [], _, _, _, hi, _ => absurd hi (by simp)
  | l :: ls, c, m, 0, _, hs => by
    rw [processLines_cons]
    rw [fenceStateAt_zero] at hs
    simp only [List.getD_cons_zero]
    rcases hs with h | h <;>
      · by_cases h1 : fenceMark.isPrefixOf (pyStrip l) = true <;>
          by_cases h2 : mathMark.isPrefixOf (pyStrip l) = true <;>
            simp_all
  | l :: ls, c, m, i + 1, hi, hs => by
    rw [processLines_cons]
    rw [fenceStateAt_succ] at hs
    simp only [List.getD_cons_succ]
    have := processLines_active_unchanged bq ls (stepFence (c, m) l).1
      (stepFence (c, m) l).2 i (by simpa using hi)
    simp only [Prod.mk.eta] at this
    exact this hs

theorem fenceStateAt_code_toggle :
    ∀ (ls : List Str) (st : Bool × Bool) (i : Nat), i < ls.length →
      fenceMark.isPrefixOf (pyStrip (ls.getD i [])) = true →
      fenceStateAt st ls (i + 1) =
        (!(fenceStateAt st ls i).1, (fenceStateAt st ls i).2)
  | [], _, _, hi, _ => absurd hi (by simp)
  | l :: ls, st, 0, _, hf => by
    rw [fenceStateAt_succ, fenceStateAt_zero, fenceStateAt_zero]
    simp only [List.getD_cons_zero] at hf
    simp [stepFence, hf]
  | l :: ls, st, i + 1, hi, hf => by
    rw [fenceStateAt_succ, fenceStateAt_succ]
    simp only [List.getD_cons_succ] at hf
    exact fenceStateAt_code_toggle ls _ i (by simpa using hi) hf

theorem fenceStateAt_math_toggle :
    ∀ (ls : List Str) (st : Bool × Bool) (i : Nat), i < ls.length →
      fenceMark.isPrefixOf (pyStrip (ls.getD i [])) = false →
      mathMark.isPrefixOf (pyStrip (ls.getD i [])) = true →
      fenceStateAt st ls (i + 1) =
        ((fenceStateAt st ls i).1, !(fenceStateAt st ls i).2)
  | [], _, _, hi, _, _ => absurd hi (by simp)
  | l :: ls, st, 0, _, hf, hm => by
    rw [fenceStateAt_succ, fenceStateAt_zero, fenceStateAt_zero]
    simp only [List.getD_cons_zero] at hf hm
    simp [stepFence, hf, hm]
  | l :: ls, st, i + 1, hi, hf, hm => by
    rw [fenceStateAt_succ, fenceStateAt_succ]
    simp only [List.getD_cons_succ] at hf hm
    exact fenceStateAt_math_toggle ls _ i (by simpa using hi) hf hm

theorem punctSpaced_refl : ∀ t : Str, PunctSpaced t t
  | [] => PunctSpaced.nil
  | c :: cs => PunctSpaced.copy c (punctSpaced_refl cs)

theorem mPunctuationAfter_some :
    ∀ {l : Str} {rk : Str × Nat}, mPunctuationAfter l = some rk →
      ∃ p c rest, l = p :: c :: rest ∧ p ∈ punctSet ∧ isLatinOrCJK c = true ∧
        rk = ([p, ' ', c], 2) := by
  intro l rk h
  match l with
  | [] => simp [mPunctuationAfter] at h
  | [p] => simp [mPunctuationAfter] at h
  | p :: c :: rest =>
    dsimp only [mPunctuationAfter] at h
    split at h
    · split at h
      · exact absurd h (by simp)
      · rename_i hcond _
        refine ⟨p, c, rest, rfl, ?_, ?_, ?_⟩
        · have := (Bool.and_eq_true _ _).mp hcond
          exact of_decide_eq_true this.1
        · exact ((Bool.and_eq_true _ _).mp hcond).2
        · exact (Option.some.injEq _ _).mp h.symm
    · exact absurd h (by simp)

theorem punctSpaced_scanSubF :
    ∀ (fuel : Nat) (t : Str), PunctSpaced t (scanSubF mPunctuationAfter fuel t)
  | 0, t => punctSpaced_refl t
  | _ + 1, [] => PunctSpaced.nil
  | fuel + 1, c :: cs => by
    cases hm : mPunctuationAfter (c :: cs) with
    | none =>
      simpa [scanSubF, hm] using PunctSpaced.copy c (punctSpaced_scanSubF fuel cs)
    | some rk =>
      obtain ⟨p, c2, rest, hl, hp, hc, hrk⟩ := mPunctuationAfter_some hm
      injection hl with h1 h2
      subst h1
      subst h2
      rw [hrk] at hm
      simp only [scanSubF, hm]
      have hd : max 2 1 = 2 := rfl
      rw [hd]
      simpa using PunctSpaced.ins _ _ hp hc (punctSpaced_scanSubF fuel rest)

theorem count_pos_containsSub {c : Char} :
    ∀ {l : Str}, 0 < l.count c → containsSub [c] l = true := by
  intro l h
  induction l with
  | nil => simp at h
  | cons x xs ih =>
    rw [containsSub]
    by_cases hx : x = c
    · subst hx
      simp [List.isPrefixOf]
    · have hcnt : 0 < xs.count c := by
        rw [List.count_cons] at h
        simpa [hx] using h
      simp [ih hcnt]

theorem extractTableCells_of_pipes {line : Str}
    (hp : "|".data.isPrefixOf (pyStrip line) = true)
    (hs : "|".data.isSuffixOf (pyStrip line) = true) :
    extractTableCells line = splitOnChar '|' ((pyStrip line).drop 1).dropLast := by
  simp [extractTableCells, hp, hs]

/-! ## Claim theorems -/

/-- C1: in `format_content`'s line loop (`processLines`, started from any fence
state), every line whose stripped text starts with a fence marker (` ``` ` or
`$$`) is emitted unchanged and toggles exactly the corresponding flag of the
fence state, and every line processed while either fence flag is active is
emitted byte-for-byte unchanged — hence an unterminated fence leaves every
remaining line of the document unchanged up to end of input. -/
theorem claim1_fence_protection (lines : List Str) (c m : Bool) :
    (processLines false c m lines).length = lines.length ∧
    (∀ i, i < lines.length →
      fenceMark.isPrefixOf (pyStrip (lines.getD i [])) = true →
      (processLines false c m lines).getD i [] = lines.getD i [] ∧
      fenceStateAt (c, m) lines (i + 1) =
        (!(fenceStateAt (c, m) lines i).1, (fenceStateAt (c, m) lines i).2)) ∧
    (∀ i, i < lines.length →
      fenceMark.isPrefixOf (pyStrip (lines.getD i [])) = false →
      mathMark.isPrefixOf (pyStrip (lines.getD i [])) = true →
      (processLines false c m lines).getD i [] = lines.getD i [] ∧
      fenceStateAt (c, m) lines (i + 1) =
        ((fenceStateAt (c, m) lines i).1, !(fenceStateAt (c, m) lines i).2)) ∧
    (∀ i, i < lines.length →
      ((fenceStateAt (c, m) lines i).1 = true ∨ (fenceStateAt (c, m) lines i).2 = true) →
      (processLines false c m lines).getD i [] = lines.getD i []) :=
  ⟨processLines_length false lines c m,
   fun i hi hf =>
     ⟨processLines_fence_unchanged false lines c m i hi hf,
      fenceStateAt_code_toggle lines (c, m) i hi hf⟩,
   fun i hi hf hm =>
     ⟨processLines_math_unchanged false lines c m i hi hf hm,
      fenceStateAt_math_toggle lines (c, m) i hi hf hm⟩,
   fun i hi hs => processLines_active_unchanged false lines c m i hi hs⟩

/-- Witness for C1: on the document `["```", "a中b"]` the fence line is
emitted unchanged and the line inside the (unterminated) fence is emitted
unchanged. -/
theorem claim1_fence_protection_witness :
    (processLines false false false ["```".data, "a中b".data]).getD 1 [] = "a中b".data ∧
    (processLines false false false ["```".data, "a中b".data]).getD 0 [] = "```".data := by
  constructor
  · exact (claim1_fence_protection ["```".data, "a中b".data] false false).2.2.2 1
      (by decide) (Or.inl (by decide))
  · exact ((claim1_fence_protection ["```".data, "a中b".data] false false).2.1 0
      (by decide) (by decide)).1

/-- C2 (bug evidence): masking the span `leakInput` — twelve inline formulas,
the second wrapped in inline code — and immediately restoring does not
reproduce the input: `sorted(keys, reverse=True)` sorts the placeholder keys
as strings, so `__PROTECTED_1__` is processed before `__PROTECTED_12__` and
the key that placeholder 12's recorded text re-inserts is never replaced.
The literal `__PROTECTED_1__` leaks into the restored text and into the final
output of `content_spacing_fix`, although the input contained no placeholder
text. -/
theorem claim2_restore_leak :
    restoreSpecialContent (protectSpecialContent leakInput).1
        (protectSpecialContent leakInput).2 ≠ leakInput ∧
    containsSub "__PROTECTED_1__".data
      (restoreSpecialContent (protectSpecialContent leakInput).1
        (protectSpecialContent leakInput).2) = true ∧
    containsSub "__PROTECTED".data leakInput = false ∧
    containsSub "__PROTECTED_1__".data (contentSpacingFixB false leakInput) = true := by
  decide

/-- Counterexample to C3: `format_content` is not idempotent.  On `"a.b.c"`
the first pass leaves `"a.b"` alone (the `punctuation_after` lookahead
`\w*\.\w+` sees the following `".c"`) but splits `".c"`, producing
`"a.b. c"`; on the second pass the lookahead no longer matches, so the result
changes again to `"a. b. c"`. -/
theorem claim3_counterexample :
    formatContent false "a.b.c" = "a.b. c" ∧
    formatContent false (formatContent false "a.b.c") = "a. b. c" ∧
    formatContent false (formatContent false "a.b.c") ≠ formatContent false "a.b.c" := by
  decide

/-- C3 (amended): the transform is not idempotent on all inputs, but applying
it twice returns the once-transformed text unchanged on the documented
canonical scenarios (Scenarios 1–6 of the spec). -/
theorem claim3_idempotent_on_scenarios :
    formatContent false (formatContent false "中文English") =
      formatContent false "中文English" ∧
    formatContent false (formatContent false "v 1.2.3") =
      formatContent false "v 1.2.3" ∧
    formatContent false (formatContent false "UTF - 8") =
      formatContent false "UTF - 8" ∧
    formatContent false
        (formatContent false "| 列1 | 列2English |\n| ---- | ---- |\n| 中文 | English |") =
      formatContent false "| 列1 | 列2English |\n| ---- | ---- |\n| 中文 | English |" ∧
    formatContent false (formatContent false "```\n中文English\n```\n") =
      formatContent false "```\n中文English\n```\n" ∧
    formatContent false (formatContent false "src / core / formatter. py") =
      formatContent false "src / core / formatter. py" := by
  decide

/-- C4: the core transform is total.  For every input string — including the
empty string and arbitrary Unicode — the driver is a total computable function
producing exactly one output line per input line, and `formatContent` is their
join; there is no failing path (the embedding needs no `Option`/`Except`
anywhere because the source performs no partial operation: all indexing is by
guarded slices). -/
theorem claim4_totality (content : String) :
    (processLines false false false (splitOnChar '\n' content.data)).length =
      (splitOnChar '\n' content.data).length ∧
    formatContent false content =
      ⟨joinNl (processLines false false false (splitOnChar '\n' content.data))⟩ ∧
    formatContent false "" = "" ∧
    formatContent false "∀µλ→" = "∀µλ→" :=
  ⟨processLines_length false _ false false, rfl, by decide, by decide⟩

/-- C5 (amended): a table row in which the separator search pattern
`\|\s*[-:]+\s*\|` matches anywhere is emitted verbatim; any other table row
whose stripped text starts and ends with `|` is split on `|` into interior
cells, each non-empty cell's stripped content is transformed independently and
re-wrapped with exactly one leading and one trailing space, empty cells become
a single space, and the output is re-wrapped in leading/trailing pipes; as an
instance, Scenario 4's document transforms with the separator row untouched. -/
theorem claim5_table_rows :
    (∀ line : Str, isProtectedContent line = false → isHorizontalRuleLine line = false →
      isTitleLine line = false → isListLine line = false → isQuoteLine line = false →
      isTableLine line = true → sepSearch (pyStrip line) = true →
      formatLine false line = line) ∧
    (∀ line : Str, isProtectedContent line = false → isHorizontalRuleLine line = false →
      isTitleLine line = false → isListLine line = false → isQuoteLine line = false →
      isTableLine line = true → sepSearch (pyStrip line) = false →
      "|".data.isPrefixOf (pyStrip line) = true →
      "|".data.isSuffixOf (pyStrip line) = true →
      formatLine false line =
        '|' :: List.intercalate ['|']
          ((splitOnChar '|' ((pyStrip line).drop 1).dropLast).map (processCell false)) ++
          ['|']) ∧
    (∀ cell : Str, pyStrip cell = [] → processCell false cell = [' ']) ∧
    (∀ cell : Str, pyStrip cell ≠ [] →
      processCell false cell = ' ' :: contentSpacingFixB false (pyStrip cell) ++ [' ']) ∧
    formatContent false "| 列1 | 列2English |\n| ---- | ---- |\n| 中文 | English |" =
      "| 列 1 | 列 2 English |\n| ---- | ---- |\n| 中文 | English |" := by
  refine ⟨?_, ?_, ?_, ?_, by decide⟩
  · intro line h1 h2 h3 h4 h5 h6 h7
    simp [formatLine, h1, h2, h3, h4, h5, h6, h7]
  · intro line h1 h2 h3 h4 h5 h6 h7 hp hs
    rw [← extractTableCells_of_pipes hp hs]
    simp [formatLine, h1, h2, h3, h4, h5, h6, h7]
  · intro cell hc
    simp [processCell, hc]
  · intro cell hc
    simp [processCell, List.isEmpty_iff, hc]

/-- Witness for C5: a row the separator search matches is emitted verbatim,
and a well-formed row is rebuilt from its processed cells. -/
theorem claim5_table_rows_witness :
    formatLine false "| - |".data = "| - |".data ∧
    formatLine false "| 中a |".data =
      '|' :: List.intercalate ['|']
        ((splitOnChar '|' ((pyStrip "| 中a |".data).drop 1).dropLast).map
          (processCell false)) ++ ['|'] := by
  constructor
  · exact claim5_table_rows.1 "| - |".data (by decide) (by decide) (by decide)
      (by decide) (by decide) (by decide) (by decide)
  · exact claim5_table_rows.2.1 "| 中a |".data (by decide) (by decide) (by decide)
      (by decide) (by decide) (by decide) (by decide) (by decide) (by decide)

/-- Counterexample to C5 as stated: the row `"| 中a | - | b |"` is not a
separator row under the claim's definition (its cells are not all dashes and
colons), so its first cell should be transformed to `"中 a"`; but the code's
separator check is a *search* anywhere in the row, the middle cell `"| - |"`
matches it, and the whole row is emitted verbatim with no cell transformed. -/
theorem claim5_counterexample :
    formatLine false "| 中a | - | b |".data = "| 中a | - | b |".data ∧
    contentSpacingFixB false "中a".data = "中 a".data ∧
    "中 a".data ≠ "中a".data := by
  decide

/-- C6 (bug evidence): list lines are re-emitted from their *stripped* text,
so the original leading indentation is removed, contradicting the claim, the
spec and the repository's own test `test_list_indentation_preservation`. -/
theorem claim6_indentation_dropped :
    formatContent false "  - 中" = "- 中" ∧ ("- 中" : String) ≠ "  - 中" ∧
    formatContent false "1. 一级列表\n   1. 二级列表" = "1. 一级列表\n1. 二级列表" ∧
    ("1. 一级列表\n1. 二级列表" : String) ≠ "1. 一级列表\n   1. 二级列表" := by
  decide

/-- Counterexample to C7 as stated: `"score / item"` shows none of the claim's
path signals — no file-extension signal, no Windows drive pattern, and no path
keyword occurring *as a token* — yet the slash spaces are collapsed, because
the code tests `keyword in text` and the keyword `core` occurs inside the word
`score`. -/
theorem claim7_counterexample :
    hasPathKeywordToken "score / item".data = false ∧
    scanFind mExtSignal "score / item".data = false ∧
    scanFind mDriveSignal "score / item".data = false ∧
    fixFilePaths "score / item".data = "score/item".data ∧
    "score/item".data ≠ "score / item".data := by
  decide

/-- C7 (amended): file-path cleanup glues space-separated extensions
(`word SPACE . SPACE ext` → `word.ext`); when the text shows path-indicative
signals — a file-extension signal, a recognized path keyword occurring
anywhere *as a substring* (Python `keyword in text`, so also inside a longer
word), or a Windows drive pattern — spaces around `/` and `\` are collapsed,
and without any signal they are not; and when a slash or backslash is present
the remaining dot-space sequences are glued, so
`"src / core / formatter. py"` transforms to `"src/core/formatter.py"`. -/
theorem claim7_path_cleanup :
    formatContent false "src / core / formatter. py" = "src/core/formatter.py" ∧
    fixFilePaths "requirements . txt".data = "requirements.txt".data ∧
    hasPathFeatures "score / item".data = true ∧
    fixFilePaths "score / item".data = "score/item".data ∧
    hasPathFeatures "a / b".data = false ∧
    fixFilePaths "a / b".data = "a / b".data ∧
    fixFilePaths "x . y".data = "x.y".data := by
  decide

/-- C8 (amended): the `punctuation_after` pass only ever inserts single
spaces, each directly after a punctuation character of `, . ! ? ; :` and
before a Latin or CJK character (never before the punctuation, never deleting
anything) — `PunctSpaced` relates every input to its output; the insertion is
suppressed when the following characters continue as `\w*\.\w+` (a further
dotted segment), not for arbitrary extension-like tails: whitelisted filenames
such as `file.py` survive only because the vault masks them, while
`"file.cpp"` becomes `"file. cpp"`. -/
theorem claim8_punctuation_spacing :
    (∀ t : Str, PunctSpaced t (scanSub mPunctuationAfter t)) ∧
    formatContent false "Hello,world" = "Hello, world" ∧
    formatContent false "file.py" = "file.py" ∧
    formatContent false "file.cpp" = "file. cpp" :=
  ⟨fun t => punctSpaced_scanSubF t.length t, by decide, by decide, by decide⟩

/-- Counterexample to C8 as stated: `"file.cpp"` is a `word.ext`-shaped token
(extension not in the vault's whitelist, no second dot), and the transform
turns it into `"file. cpp"`. -/
theorem claim8_counterexample :
    formatContent false "file.cpp" = "file. cpp" ∧
    ("file. cpp" : String) ≠ "file.cpp" := by
  decide

/-- C9 (bug evidence): with `bold_quotes` enabled, the span `"“单独引号”"` —
one sibling (non-nested) pair of the CJK double-quote glyphs — is returned
completely unmodified instead of being wrapped in bold markers (the
repository's own test asserts `**单独引号**`): the pattern
`"([^"]*)"` and the `startswith` guard use the ASCII quote 0x22, not the CJK
glyphs, as the last two conjuncts demonstrate on ASCII-quoted text. -/
theorem claim9_quote_glyph_bug :
    contentSpacingFixB true "“单独引号”".data = "“单独引号”".data ∧
    "“单独引号”".data ≠ "**单独引号**".data ∧
    fixChineseQuotesBold "a\"b\"c".data = "a **b** c".data ∧
    fixChineseQuotesBold "\"a\" x".data = "\"a\" x".data := by
  decide

/-- C10 (amended): every line that reaches the table branch — not a fence
delimiter, horizontal rule, title, list or quote line — with at least two `|`
in its stripped text, no separator-search match, and a stripped text that does
not both start and end with `|`, is rebuilt from an empty cell list: its whole
content is replaced by the two characters `"||"`. -/
theorem claim10_degenerate_table (line : Str)
    (h1 : isProtectedContent line = false) (h2 : isHorizontalRuleLine line = false)
    (h3 : isTitleLine line = false) (h4 : isListLine line = false)
    (h5 : isQuoteLine line = false) (h6 : 2 ≤ (pyStrip line).count '|')
    (h7 : sepSearch (pyStrip line) = false)
    (h8 : ("|".data.isPrefixOf (pyStrip line) &&
           "|".data.isSuffixOf (pyStrip line)) = false) :
    formatLine false line = ['|', '|'] := by
  have hc : containsSub ['|'] (pyStrip line) = true :=
    count_pos_containsSub (lt_of_lt_of_le (by norm_num) h6)
  have ht : isTableLine line = true := by
    simp [isTableLine, hc, h7, h6]
  have hcells : extractTableCells line = [] := by
    unfold extractTableCells
    rcases Bool.and_eq_false_iff.mp h8 with h | h <;> simp [h]
  simp [formatLine, h1, h2, h3, h4, h5, ht, h7, hcells, List.intercalate]

/-- Witness for C10: the line `"a|b|c"` is replaced by `"||"`. -/
theorem claim10_degenerate_table_witness :
    formatLine false "a|b|c".data = ['|', '|'] :=
  claim10_degenerate_table "a|b|c".data (by decide) (by decide) (by decide)
    (by decide) (by decide) (by decide) (by decide) (by decide)

/-- Counterexample to C10 as stated: the claim quantifies over *every* line
with at least two pipes not wrapped in pipes, but `"- a|b|c"` is such a line
and `format_content` classifies it as a list item, keeping its content intact
rather than replacing it by `"||"`. -/
theorem claim10_counterexample :
    formatContent false "- a|b|c" = "- a|b|c" ∧ ("- a|b|c" : String) ≠ "||" := by
  decide

end MarkdownSpacer
